import Mathlib

/-!
# Verification of the MAAS repository slice

Shallow embedding, in Lean 4, of the components of the MAAS source tree
that the claims under scrutiny concern:

* `provisioningserver/tags.py` — batch slicing (`gen_batch_slices`,
  `gen_batches`) and hardware-detail XML merging (`merge_details`).
* `provisioningserver/security.py` — shared-secret filesystem storage and
  `calculate_digest` (HMAC-SHA-256).
* `maascli/config.py` — the `ProfileConfig` sqlite-backed profile store.
* `maasserver/models/macaddress.py` — `MACAddress.set_static_ip`.
* `maasserver/api/scripts.py` — `NodeScriptHandler.download`.
* `maasserver/forms_vlan.py` (modelled from the spec; only its tests are in
  the slice) — VLAN rack promotion.
* `maasserver/region_controller.py` (modelled from the spec; only its tests
  are in the slice) — the region controller reconciliation service.

Machine bytes are modelled as `Nat` values, with explicit `% 2 ^ 32`
arithmetic where 32-bit overflow matters (SHA-256).
-/

namespace Maas

/-! ## `provisioningserver/tags.py`: batch slicing

Python source:

```python
def gen_batch_slices(count, size):
    batch_count, remaining = divmod(count, size)
    batch_count += 1 if remaining > 0 else 0
    for batch in xrange(batch_count):
        yield slice(batch, None, batch_count)

def gen_batches(things, batch_size):
    slices = gen_batch_slices(len(things), batch_size)
    return (things[s] for s in slices)
```
-/

/-- The indices selected by the Python extended slice `[start::step]`
(`step > 0`) out of a list of length `count`: indices `start`,
`start + step`, `start + 2*step`, … below `count`. -/
def sliceIndices (count start step : Nat) : List Nat :=
  (List.range count).filter (fun i => start ≤ i && (i - start) % step == 0)

/-- Python extended slicing `things[start::step]` for a positive `step`. -/
def pySlice (things : List α) (start step : Nat) : List α :=
  (sliceIndices things.length start step).filterMap (fun i => things.get? i)

/-- `gen_batch_slices(count, size)`: the list of `(start, step)` pairs of the
slices yielded, in order.  `batch_count = count / size`, incremented when the
division has a remainder; every yielded slice is `slice(batch, None,
batch_count)`. -/
def gen_batch_slices (count size : Nat) : List (Nat × Nat) :=
  let batch_count := count / size + (if count % size > 0 then 1 else 0)
  (List.range batch_count).map (fun batch => (batch, batch_count))

/-- `gen_batches(things, batch_size)`: apply each generated slice to the
list. -/
def gen_batches (things : List α) (batch_size : Nat) : List (List α) :=
  (gen_batch_slices things.length batch_size).map
    (fun s => pySlice things s.1 s.2)

/-! ## `provisioningserver/tags.py`: `merge_details`

The merge works on lxml element trees.  An element is modelled by its
namespace, tag and child elements; text and attributes play no role in the
merge logic.  The child sequence is a mutually inductive forest so that all
functions are structurally recursive and computable. -/

mutual

inductive XElem where
  | mk (ns : String) (tag : String) (children : XForest)

inductive XForest where
  | nil
  | cons (hd : XElem) (tl : XForest)

end

def XElem.ns : XElem → String
  | .mk n _ _ => n

def XElem.tag : XElem → String
  | .mk _ t _ => t

def XElem.children : XElem → XForest
  | .mk _ _ c => c

def XForest.toList : XForest → List XElem
  | .nil => []
  | .cons x xs => x :: xs.toList

def XForest.append : XForest → XForest → XForest
  | .nil, ys => ys
  | .cons x xs, ys => .cons x (xs.append ys)

def XForest.ofList : List XElem → XForest
  | [] => .nil
  | x :: xs => .cons x (XForest.ofList xs)

mutual

/-- `for elem in detail.iter("{}*"): elem.tag = etree.QName(namespace,
elem.tag)`: every element of the tree carrying no namespace is re-tagged
into `nsname`; already-qualified elements are untouched. -/
def retagElem (nsname : String) : XElem → XElem
  | .mk ens t ch =>
    .mk (if ens = "" then nsname else ens) t (retagForest nsname ch)

def retagForest (nsname : String) : XForest → XForest
  | .nil => .nil
  | .cons x xs => .cons (retagElem nsname x) (retagForest nsname xs)

end

/-- One value of the `details` mapping.  The Python value is either `None`
(`absent`), or a byte string; `etree.fromstring` (external XML parsing)
either fails on it (`malformed`) or yields a document tree (`parsed`). -/
inductive Detail where
  | absent
  | malformed
  | parsed (doc : XElem)

/-- Dictionary lookup `details.get(name)` over the association list. -/
def detailsGet (name : String) (details : List (String × Detail)) :
    Option Detail :=
  (details.find? (fun p => p.1 = name)).map Prod.snd

/-- Dictionary removal `del details[name]`. -/
def detailsErase (name : String) (details : List (String × Detail)) :
    List (String × Detail) :=
  details.filter (fun p => p.1 ≠ name)

/-- Insertion step of sorting the mapping by key, for `sorted(details)`. -/
def insertByKey (x : String × Detail) :
    List (String × Detail) → List (String × Detail)
  | [] => [x]
  | y :: ys => if x.1 ≤ y.1 then x :: y :: ys else y :: insertByKey x ys

/-- `sorted(details)`: the key-sorted iteration order of the mapping. -/
def sortByKey (l : List (String × Detail)) : List (String × Detail) :=
  l.foldr insertByKey []

/-- `_details_prepare_merge`: copy the details and root everything in a
namespace-less `list` element (the nsmap only affects serialization). -/
def details_prepare_merge (details : List (String × Detail)) :
    List (String × Detail) × XElem :=
  (details, .mk "" "list" .nil)

/-- `_details_make_backwards_compatible`: if well-formed lshw details are
present they become the root (`root.append(lshw); root = lshw` — the old
root is discarded when the tree is re-homed); malformed lshw details are
deleted from the mapping; otherwise nothing changes. -/
def details_make_backwards_compatible (details : List (String × Detail))
    (root : XElem) : List (String × Detail) × XElem :=
  match detailsGet "lshw" details with
  | some Detail.malformed => (detailsErase "lshw" details, root)
  | some (Detail.parsed lshw) => (details, lshw)
  | _ => (details, root)

/-- The per-namespace merge step of `_details_do_merge`: a parsed document
is re-tagged into its namespace and kept; absent or malformed documents are
skipped (the latter logged as invalid). -/
def mergeEntry (p : String × Detail) : Option XElem :=
  match p.2 with
  | Detail.parsed doc => some (retagElem p.1 doc)
  | _ => none

/-- `_details_do_merge`: append every remaining parsed detail, re-tagged
into its namespace, under the root, in sorted namespace order; then re-home
the root in a fresh tree (modelled by returning the root element itself). -/
def details_do_merge (details : List (String × Detail)) (root : XElem) :
    XElem :=
  .mk root.ns root.tag
    (root.children.append (XForest.ofList ((sortByKey details).filterMap mergeEntry)))

/-- `merge_details`: prepare, apply the lshw backwards-compatibility step,
then merge. -/
def merge_details (details : List (String × Detail)) : XElem :=
  let pr := details_prepare_merge details
  let bc := details_make_backwards_compatible pr.1 pr.2
  details_do_merge bc.1 bc.2

/-- `merge_details_cleanly`: the same merge without the lshw special case. -/
def merge_details_cleanly (details : List (String × Detail)) : XElem :=
  let pr := details_prepare_merge details
  details_do_merge pr.1 pr.2

/-- The concrete mapping of the claim:
`{"lshw": "<list><node/></list>", "lldp": "<info/>"}` after parsing. -/
def exampleDetails : List (String × Detail) :=
  [("lshw", Detail.parsed (.mk "" "list" (.cons (.mk "" "node" .nil) .nil))),
    ("lldp", Detail.parsed (.mk "" "info" .nil))]

/-! ## `provisioningserver/security.py`

Byte strings are lists of `Nat` values below 256. -/

/-- Lowercase hex digit for a value below 16 (as produced by
`binascii.b2a_hex`). -/
def hexDigit (n : Nat) : Char :=
  if n < 10 then Char.ofNat (48 + n) else Char.ofNat (87 + n)

/-- `to_hex(b)`: `b2a_hex(b).decode("ascii")`. -/
def to_hex (b : List Nat) : String :=
  ⟨b.flatMap (fun x => [hexDigit (x / 16), hexDigit (x % 16)])⟩

/-- Value of one hex digit; `binascii.a2b_hex` accepts both cases. -/
def hexVal (c : Char) : Option Nat :=
  if 48 ≤ c.toNat ∧ c.toNat ≤ 57 then some (c.toNat - 48)
  else if 97 ≤ c.toNat ∧ c.toNat ≤ 102 then some (c.toNat - 87)
  else if 65 ≤ c.toNat ∧ c.toNat ≤ 70 then some (c.toNat - 55)
  else none

/-- `binascii.a2b_hex`: pairs of hex digits to bytes; fails (raises
`binascii.Error`) on odd length or a non-hex character. -/
def a2b_hex : List Char → Option (List Nat)
  | [] => some []
  | [_] => none
  | c1 :: c2 :: rest => do
    let hi ← hexVal c1
    let lo ← hexVal c2
    let r ← a2b_hex rest
    pure ((16 * hi + lo) :: r)

/-- The ASCII whitespace characters removed by `bytes.strip()`. -/
def isPyWhitespace (c : Char) : Bool :=
  c == ' ' || c == '\t' || c == '\n' || c == '\r' ||
    c.toNat == 11 || c.toNat == 12

/-- `bytes.strip()`: drop leading and trailing ASCII whitespace. -/
def stripChars (l : List Char) : List Char :=
  ((l.dropWhile isPyWhitespace).reverse.dropWhile isPyWhitespace).reverse

/-- `to_bin(u)`: `a2b_hex(u.encode("ascii").strip())`; `none` models the
raised `binascii.Error`. -/
def to_bin (u : String) : Option (List Nat) :=
  a2b_hex (stripChars u.data)

/-- The observable state of the shared-secret file at
`get_shared_secret_filesystem_path()`.  `ioError` stands for a file whose
read fails with an `IOError` other than `ENOENT`. -/
inductive SecretFile where
  | absent
  | stored (text : String)
  | ioError

/-- How a shared-secret read can fail: a non-ENOENT `IOError` is re-raised,
and a `binascii.Error` from `to_bin` propagates. -/
inductive SecretError where
  | ioError
  | decodeError

/-- `get_shared_secret_from_filesystem()`: absent file (ENOENT) yields no
value; another I/O failure propagates; otherwise the file's text is
hex-decoded via `to_bin` (locking and directory creation do not affect the
value read). -/
def get_shared_secret_from_filesystem :
    SecretFile → Except SecretError (Option (List Nat))
  | .absent => .ok none
  | .ioError => .error .ioError
  | .stored text =>
    match to_bin text with
    | some b => .ok (some b)
    | none => .error .decodeError

/-- `set_shared_secret_on_filesystem(secret)`: chmod the file to 0640, then
store `to_hex(secret)` as its text.  Only the resulting file content is
observable in this model. -/
def set_shared_secret_on_filesystem (secret : List Nat) (_fs : SecretFile) :
    SecretFile :=
  .stored (to_hex secret)

/-! ### SHA-256 and HMAC (the `hashlib`/`hmac` boundary of
`calculate_digest`), implemented per FIPS 180-4 / RFC 2104 with `Nat`
arithmetic truncated to 32 bits. -/

/-- Truncation to 32 bits. -/
def w32 (n : Nat) : Nat := n % 2 ^ 32

def rotr32 (n x : Nat) : Nat := w32 (x >>> n ||| x <<< (32 - n))

def shr32 (n x : Nat) : Nat := x >>> n

def bnot32 (x : Nat) : Nat := w32 (x ^^^ (2 ^ 32 - 1))

def smallSigma0 (x : Nat) : Nat := rotr32 7 x ^^^ rotr32 18 x ^^^ shr32 3 x

def smallSigma1 (x : Nat) : Nat := rotr32 17 x ^^^ rotr32 19 x ^^^ shr32 10 x

def bigSigma0 (x : Nat) : Nat := rotr32 2 x ^^^ rotr32 13 x ^^^ rotr32 22 x

def bigSigma1 (x : Nat) : Nat := rotr32 6 x ^^^ rotr32 11 x ^^^ rotr32 25 x

/-- The SHA-256 round constants (decimal). -/
def K256 : List Nat :=
  [1116352408, 1899447441, 3049323471, 3921009573, 961987163, 1508970993,
   2453635748, 2870763221, 3624381080, 310598401, 607225278, 1426881987,
   1925078388, 2162078206, 2614888103, 3248222580, 3835390401, 4022224774,
   264347078, 604807628, 770255983, 1249150122, 1555081692, 1996064986,
   2554220882, 2821834349, 2952996808, 3210313671, 3336571891, 3584528711,
   113926993, 338241895, 666307205, 773529912, 1294757372, 1396182291,
   1695183700, 1986661051, 2177026350, 2456956037, 2730485921, 2820302411,
   3259730800, 3345764771, 3516065817, 3600352804, 4094571909, 275423344,
   430227734, 506948616, 659060556, 883997877, 958139571, 1322822218,
   1537002063, 1747873779, 1955562222, 2024104815, 2227730452, 2361852424,
   2428436474, 2756734187, 3204031479, 3329325298]

/-- The SHA-256 initial hash value (decimal). -/
def H256init : List Nat :=
  [1779033703, 3144134277, 1013904242, 2773480762,
   1359893119, 2600822924, 528734635, 1541459225]

/-- The 64-bit big-endian length field of the SHA-256 padding. -/
def bigEndian8 (n : Nat) : List Nat :=
  [n / 2 ^ 56 % 256, n / 2 ^ 48 % 256, n / 2 ^ 40 % 256, n / 2 ^ 32 % 256,
   n / 2 ^ 24 % 256, n / 2 ^ 16 % 256, n / 2 ^ 8 % 256, n % 256]

/-- SHA-256 padding: a `0x80` byte, zeros to 56 mod 64, then the bit
length. -/
def sha256pad (msg : List Nat) : List Nat :=
  let len := msg.length
  let zeros := (64 - (len + 9) % 64) % 64
  msg ++ [0x80] ++ List.replicate zeros 0 ++ bigEndian8 (8 * len)

/-- Big-endian 32-bit words from bytes. -/
def toWords : List Nat → List Nat
  | b0 :: b1 :: b2 :: b3 :: rest =>
    (((b0 * 256 + b1) * 256 + b2) * 256 + b3) :: toWords rest
  | _ => []

/-- Extend the 16 message words to the 64-entry message schedule. -/
def extendW (w : List Nat) : List Nat :=
  (List.range 48).foldl (fun acc _ =>
    let n := acc.length
    acc ++ [w32 (smallSigma1 (acc.getD (n - 2) 0) + acc.getD (n - 7) 0 +
      smallSigma0 (acc.getD (n - 15) 0) + acc.getD (n - 16) 0)]) w

/-- One SHA-256 compression round on the eight working registers. -/
def compressStep (st : List Nat) (kw : Nat × Nat) : List Nat :=
  match st with
  | [a, b, c, d, e, f, g, h] =>
    let ch := w32 ((e &&& f) ^^^ (bnot32 e &&& g))
    let t1 := w32 (h + bigSigma1 e + ch + kw.1 + kw.2)
    let maj := w32 ((a &&& b) ^^^ (a &&& c) ^^^ (b &&& c))
    let t2 := w32 (bigSigma0 a + maj)
    [w32 (t1 + t2), a, b, c, w32 (d + t1), e, f, g]
  | other => other

/-- Compress one 64-byte block into the hash state. -/
def sha256compress (h : List Nat) (block : List Nat) : List Nat :=
  let w := extendW (toWords block)
  let out := (K256.zip w).foldl compressStep h
  (h.zip out).map (fun p => w32 (p.1 + p.2))

/-- Fold the compression function over the 64-byte blocks of the padded
message. -/
def sha256loop (h : List Nat) (msg : List Nat) : List Nat :=
  if msg.isEmpty then h
  else sha256loop (sha256compress h (msg.take 64)) (msg.drop 64)
termination_by msg.length
decreasing_by
  simp only [List.length_drop]
  rename_i hne
  rw [List.isEmpty_iff] at hne
  have : 0 < msg.length := List.length_pos.mpr (by simpa using hne)
  omega

def wordToBytes (x : Nat) : List Nat :=
  [x / 2 ^ 24 % 256, x / 2 ^ 16 % 256, x / 2 ^ 8 % 256, x % 256]

/-- SHA-256 of a byte string.  `sha256 []` is the well-known
`e3b0c442…7852b855` digest. -/
def sha256 (msg : List Nat) : List Nat :=
  (sha256loop H256init (sha256pad msg)).flatMap wordToBytes

/-- RFC 2104 key preparation: hash keys longer than the 64-byte block, then
zero-pad to the block size. -/
def hmacBlockKey (key : List Nat) : List Nat :=
  let k := if key.length > 64 then sha256 key else key
  k ++ List.replicate (64 - k.length) 0

/-- HMAC-SHA-256 of a complete message. -/
def hmac_sha256 (key msg : List Nat) : List Nat :=
  let k := hmacBlockKey key
  let ipad := k.map (fun b => b ^^^ 0x36)
  let opad := k.map (fun b => b ^^^ 0x5c)
  sha256 (opad ++ sha256 (ipad ++ msg))

/-- A streaming `hmac.HMAC` object as `calculate_digest` uses it:
functionally, the key plus the bytes fed so far.  `digest()` of a streaming
MAC is the MAC of the concatenation of all updates. -/
structure HMACState where
  key : List Nat
  acc : List Nat

/-- `HMAC(secret, digestmod=sha256)`. -/
def HMAC_new (secret : List Nat) : HMACState := ⟨secret, []⟩

/-- `hmacr.update(m)`. -/
def HMACState.update (st : HMACState) (m : List Nat) : HMACState :=
  ⟨st.key, st.acc ++ m⟩

/-- `hmacr.digest()`. -/
def HMACState.digest (st : HMACState) : List Nat :=
  hmac_sha256 st.key st.acc

/-- `calculate_digest(secret, message, salt)`: update with `message`, then
with `salt`, then take the digest. -/
def calculate_digest (secret message salt : List Nat) : List Nat :=
  (((HMAC_new secret).update message).update salt).digest

/-! ## `maascli/config.py`: `ProfileConfig`

The sqlite table `profiles(id, name UNIQUE, data)` is modelled by its rows
in insertion order; `id` is never consulted by the class.  `json.dumps` /
`json.loads` belong to the external json library, so the profile operations
take the encode/decode pair as parameters. -/

/-- The `profiles` table: `(name, data)` rows, `name` unique, `data` the
JSON text stored for the profile. -/
structure ProfileDb where
  rows : List (String × String)

/-- `SELECT data FROM profiles WHERE name = ?` (first match). -/
def selectData (db : ProfileDb) (name : String) : Option String :=
  (db.rows.find? (fun r => r.1 = name)).map Prod.snd

/-- `INSERT OR REPLACE INTO profiles (name, data) VALUES (?, ?)`: under the
UNIQUE constraint on `name`, any existing row with that name is deleted and
the new row inserted. -/
def insertOrReplace (db : ProfileDb) (name data : String) : ProfileDb :=
  ⟨db.rows.filter (fun r => r.1 ≠ name) ++ [(name, data)]⟩

/-- `DELETE FROM profiles WHERE name = ?` (no error if absent). -/
def deleteRow (db : ProfileDb) (name : String) : ProfileDb :=
  ⟨db.rows.filter (fun r => r.1 ≠ name)⟩

/-- `ProfileConfig.__iter__`: `SELECT name FROM profiles`. -/
def profileNames (db : ProfileDb) : List String :=
  db.rows.map Prod.fst

/-- `ProfileConfig.__getitem__`: a missing row raises `KeyError(name)`
(surfaced as NotFound); otherwise the stored text is decoded with
`json.loads`. -/
def profileGet (loads : String → J) (db : ProfileDb) (name : String) :
    Except String J :=
  match selectData db name with
  | none => .error name
  | some data => .ok (loads data)

/-- `ProfileConfig.__setitem__`: store `json.dumps(data)` under the name. -/
def profileSet (dumps : J → String) (db : ProfileDb) (name : String)
    (v : J) : ProfileDb :=
  insertOrReplace db name (dumps v)

/-- `ProfileConfig.__delitem__`. -/
def profileDel (db : ProfileDb) (name : String) : ProfileDb :=
  deleteRow db name

/-- A concrete instance of the json boundary, for string payloads: the
escaping of one character in a JSON string literal. -/
def jsonEscapeChar (c : Char) : List Char :=
  if c = '"' ∨ c = '\\' then ['\\', c] else [c]

/-- `json.dumps` of a str payload: quote it, escaping quotes and
backslashes. -/
def json_dumps_str (s : List Char) : List Char :=
  '"' :: (s.flatMap jsonEscapeChar ++ ['"'])

/-- Parse the body of a JSON string literal up to its closing quote,
unescaping as it goes; returns the payload and the remaining input. -/
def jsonParseStrBody : List Char → Option (List Char × List Char)
  | [] => none
  | c :: rest =>
    if c = '"' then some ([], rest)
    else if c = '\\' then
      match rest with
      | [] => none
      | e :: rest' => (jsonParseStrBody rest').map (fun p => (e :: p.1, p.2))
    else (jsonParseStrBody rest).map (fun p => (c :: p.1, p.2))

/-- `json.loads` of a document that is one string literal. -/
def json_loads_str (s : List Char) : Option (List Char) :=
  match s with
  | '"' :: rest =>
    match jsonParseStrBody rest with
    | some (body, []) => some body
    | _ => none
  | _ => none

/-- The encode half of the string-payload codec, at the `String` type the
profile store uses. -/
def dumpsStrCodec (s : List Char) : String :=
  ⟨json_dumps_str s⟩

/-- The decode half; text that is not one string literal decodes to the
empty payload, a case the round trip never reaches. -/
def loadsStrCodec (s : String) : List Char :=
  (json_loads_str s.data).getD []

/-! ## `maasserver/api/scripts.py`: `NodeScriptHandler.download`

The handler resolves the script (by id for a numeric-looking name, else by
name) and then serves content by revision; the claim concerns the revision
logic, so the model starts from the resolved script. -/

/-- One revision in a script's version history (a VersionedTextFile row). -/
structure ScriptRevision where
  id : Int
  data : List Nat

/-- What `download` reads from a Script: the current content
(`script.script.data`) and the revision history
(`script.script.previous_versions()`). -/
structure Script where
  current_data : List Nat
  history : List ScriptRevision

/-- `download`: take the `revision` query parameter, or `rev` only when
`revision` is absent; with no revision return the current content as raw
binary; with a revision id, scan `previous_versions()` for the first
revision with that id and return its data, else raise
`MAASAPIValidationError("<id> not found in history")` (carried as the
error value). -/
def download (script : Script) (revisionParam revParam : Option Int) :
    Except Int (List Nat) :=
  let revision := match revisionParam with
    | some r => some r
    | none => revParam
  match revision with
  | none => .ok script.current_data
  | some rid =>
    match script.history.find? (fun rev => rev.id = rid) with
    | some rev => .ok rev.data
    | none => .error rid

/-! ## `maasserver/models/macaddress.py`: `MACAddress.set_static_ip`

IP addresses are numbers.  A netaddr `IPNetwork` / `IPRange` is an
inclusive interval of them.  The DHCP host-map and DNS-zone updates at the
end of a successful call go over RPC and have no effect on the modelled
database state. -/

/-- An inclusive range of IP addresses (netaddr IPRange / the address span
of an IPNetwork). -/
structure IpRange where
  lo : Nat
  hi : Nat
deriving DecidableEq

/-- Membership of an address in a range. -/
def IpRange.contains (r : IpRange) (ip : Nat) : Bool :=
  r.lo ≤ ip && ip ≤ r.hi

/-- The slice of a NodeGroupInterface that `set_static_ip` consults: its
`network` property (the address span derived from ip/subnet_mask), its
`subnet` reference if known, and its owning `nodegroup`. -/
structure ClusterInterface where
  network : IpRange
  subnet : Option Nat
  nodegroup : Nat
deriving DecidableEq

/-- The IPADDRESS_TYPE values `set_static_ip` distinguishes: STICKY versus
everything else (AUTO, …). -/
inductive AllocType where
  | auto
  | sticky
  | other
deriving DecidableEq

/-- One StaticIPAddress row. -/
structure StaticIP where
  id : Nat
  ip : Nat
  alloc_type : AllocType
  user : Option Nat
  subnet : Option Nat
deriving DecidableEq

/-- The database state `set_static_ip` reads and writes: the
StaticIPAddress table, the MACStaticIPAddressLink junction table (pairs of
MAC address string and StaticIPAddress id), the dynamic ranges of all
configured cluster interfaces, and the next fresh row id. -/
structure StaticIpDb where
  sips : List StaticIP
  links : List (String × Nat)
  dynamic_ranges : List IpRange
  next_id : Nat
deriving DecidableEq

/-- The slice of a MACAddress record that `set_static_ip` consults.  The
node traversal of `get_cluster_interface` (`self.node.installable`,
`self.node.parent`, `self == self.node.get_primary_mac()`,
`self.node.parent.get_pxe_mac().cluster_interface`) is flattened into
fields. -/
structure MACAddress where
  mac_address : String
  cluster_interface : Option ClusterInterface
  node_installable : Bool
  node_has_parent : Bool
  is_node_primary_mac : Bool
  parent_pxe_mac_cluster_interface : Option ClusterInterface

/-- `get_cluster_interface()`: the direct `cluster_interface` when set;
otherwise, for a non-installable node with a parent whose primary MAC this
is, the parent's PXE MAC's cluster interface; otherwise none. -/
def MACAddress.get_cluster_interface (m : MACAddress) :
    Option ClusterInterface :=
  match m.cluster_interface with
  | some ci => some ci
  | none =>
    if !m.node_installable && m.node_has_parent then
      if m.is_node_primary_mac then m.parent_pxe_mac_cluster_interface
      else none
    else none

/-- Modelled from the spec: `raise_if_address_inside_dynamic_range` lives
in `maasserver/models/nodegroupinterface.py`, which is not part of the
analyzed slice — "The address must not lie within any dynamic range, else
fails as forbidden." -/
def address_inside_dynamic_range (ip : Nat) (ranges : List IpRange) : Bool :=
  ranges.any (fun r => r.contains ip)

/-- The first check of `set_static_ip`: when the MAC is linked to a cluster
interface, the requested address must lie in that interface's network. -/
def passes_conflict_check (m : MACAddress) (ip : Nat) : Bool :=
  match m.get_cluster_interface with
  | some ci => ci.network.contains ip
  | none => true

/-- The failures `set_static_ip` can raise. -/
inductive StaticIpError where
  | conflict
  | forbidden
  | unavailable
  | notImplemented
deriving DecidableEq

/-- `set_static_ip(requested_address, user, fabric=None,
update_host_maps=True)`: a non-none fabric raises NotImplementedError; a
connected cluster interface whose network excludes the address raises
StaticIPAddressConflict; an address inside any dynamic range raises
StaticIPAddressForbidden; then `get_or_create` either creates a STICKY
address owned by `user` scoped to the interface's subnet and links it to
this MAC, or requires the existing address to be STICKY and linked to this
exact MAC (else StaticIPAddressUnavailable) and returns it unchanged. -/
def set_static_ip (db : StaticIpDb) (m : MACAddress)
    (requested_address user : Nat) (fabric : Option Nat) :
    Except StaticIpError (StaticIpDb × StaticIP) :=
  if fabric.isSome then .error .notImplemented
  else if !passes_conflict_check m requested_address then .error .conflict
  else if address_inside_dynamic_range requested_address db.dynamic_ranges then
    .error .forbidden
  else
    let subnet := match m.get_cluster_interface with
      | some ci => ci.subnet
      | none => none
    match db.sips.find? (fun sip => sip.ip = requested_address) with
    | none =>
      let new_sip : StaticIP :=
        ⟨db.next_id, requested_address, .sticky, some user, subnet⟩
      .ok (⟨db.sips ++ [new_sip], db.links ++ [(m.mac_address, new_sip.id)],
        db.dynamic_ranges, db.next_id + 1⟩, new_sip)
    | some sip =>
      if sip.alloc_type ≠ .sticky then .error .unavailable
      else if !db.links.any
          (fun l => l.1 = m.mac_address && l.2 = sip.id) then
        .error .unavailable
      else .ok (db, sip)

/-- The cluster interface, MAC records and database used by the witness:
the interface's network spans 100–200 with dynamic range 180–190; address
150 is STICKY and linked to MAC `aa:bb`; address 160 is AUTO. -/
def exampleCi : ClusterInterface := ⟨⟨100, 200⟩, some 1, 7⟩

def exampleMac : MACAddress := ⟨"aa:bb", some exampleCi, true, false, false, none⟩

def exampleOtherMac : MACAddress :=
  ⟨"cc:dd", some exampleCi, true, false, false, none⟩

def exampleDb : StaticIpDb :=
  ⟨[⟨0, 150, AllocType.sticky, some 5, some 1⟩,
    ⟨1, 160, AllocType.auto, none, none⟩],
    [("aa:bb", 0)], [⟨180, 190⟩], 2⟩

/-! ## `maasserver/forms_vlan.py`: VLAN rack handling

The module itself is outside the analyzed slice (only
`tests/test_forms_vlan.py` is present), so the update logic is modelled
from the specification and checked against the behaviour the tests pin
down. -/

/-- The rack-controller slots of a VLAN record. -/
structure VlanRacks where
  primary_rack : Option Nat
  secondary_rack : Option Nat
deriving DecidableEq

/-- A form field in the submitted data: omitted entirely, submitted blank,
or submitted with a rack controller's id. -/
inductive FieldSub where
  | omitted
  | blank
  | value (rack : Nat)
deriving DecidableEq

/-- A field application with no promotion involved: an omitted field keeps
the current value, a blank one clears it, a value replaces it. -/
def applyField : FieldSub → Option Nat → Option Nat
  | .omitted, cur => cur
  | .blank, _ => none
  | .value r, _ => some r

/-- Modelled from the spec: the `primary_rack`/`secondary_rack` update
rules of the VLAN form (`maasserver/forms_vlan.py` is missing from the
slice).  "primary_rack/secondary_rack, when set, must reference a rack
controller already attached to this VLAN, else validation fails"; "Setting
secondary_rack to the rack already held as primary_rack fails validation,
as does setting both fields to the same rack in one request"; "Clearing
primary_rack while a secondary_rack is set promotes the secondary into the
primary slot and clears the secondary slot"; "Setting primary_rack to the
value currently held by secondary_rack performs the same promotion
(secondary becomes primary, secondary cleared) rather than producing two
identical racks." -/
def vlan_form_update_racks (attached : List Nat) (st : VlanRacks)
    (pIn sIn : FieldSub) : Except Unit VlanRacks :=
  if (match pIn with
      | .value r => !attached.contains r
      | _ => false) then .error ()
  else if (match sIn with
      | .value r => !attached.contains r
      | _ => false) then .error ()
  else if (match pIn, sIn with
      | .value rp, .value rs => rp == rs
      | _, _ => false) then .error ()
  else if (match sIn with
      | .value rs => decide (st.primary_rack = some rs)
      | _ => false) then .error ()
  else if pIn = .blank ∧ st.secondary_rack.isSome then
    .ok ⟨st.secondary_rack, none⟩
  else if (match pIn with
      | .value rp => decide (st.secondary_rack = some rp)
      | _ => false) then
    .ok ⟨st.secondary_rack, none⟩
  else .ok ⟨applyField pIn st.primary_rack, applyField sIn st.secondary_rack⟩

/-! ## `maasserver/region_controller.py`: RegionControllerService

The module itself is outside the analyzed slice (only
`tests/test_region_controller.py` is present), so the service is modelled
from the specification's state machine and checked against the behaviour
the tests pin down. -/

/-- Modelled from the spec: the observable state of the
RegionControllerService (`maasserver/region_controller.py` is missing from
the slice) — the two dirty flags set by the `sys_dns`/`sys_proxy`
notification callbacks, whether the 0.1-second looping timer runs, whether
an in-flight processing deferred is tracked, and how often each
regeneration routine has run (`dns_update_all_zones` /
`proxy_update_config`). -/
structure RegionControllerService where
  needsDNSUpdate : Bool
  needsProxyUpdate : Bool
  timerRunning : Bool
  processingDeferPending : Bool
  dnsUpdates : Nat
  proxyUpdates : Nat
deriving DecidableEq

/-- The freshly constructed service: flags clear, timer stopped, no
in-flight processing, nothing regenerated yet. -/
def RegionControllerService.initial : RegionControllerService :=
  ⟨false, false, false, false, 0, 0⟩

/-- Modelled from the spec: `startProcessing` starts the repeating
0.1-second timer, as a no-op if it is already running. -/
def startProcessing (s : RegionControllerService) : RegionControllerService :=
  if s.timerRunning then s else { s with timerRunning := true }

/-- Modelled from the spec: the `sys_dns` callback marks the DNS flag dirty
and starts processing. -/
def markDNSForUpdate (s : RegionControllerService) : RegionControllerService :=
  startProcessing { s with needsDNSUpdate := true }

/-- Modelled from the spec: the `sys_proxy` callback marks the proxy flag
dirty and starts processing. -/
def markProxyForUpdate (s : RegionControllerService) :
    RegionControllerService :=
  startProcessing { s with needsProxyUpdate := true }

/-- Modelled from the spec: `startService` registers both channel callbacks
with the listener, then immediately marks both flags dirty (forcing an
initial reconciliation pass). -/
def startService (s : RegionControllerService) : RegionControllerService :=
  markProxyForUpdate (markDNSForUpdate s)

/-- Modelled from the spec: one elapsed tick of the timer runs a single
processing pass — if the DNS flag is dirty, clear it and regenerate all DNS
zones; if the proxy flag is dirty, clear it and regenerate the proxy
configuration; both are attempted in one pass; if afterwards neither flag
is dirty, the timer stops itself and the tracked in-flight deferred
reference is cleared to none. -/
def tick (s : RegionControllerService) : RegionControllerService :=
  let s1 := if s.needsDNSUpdate then
      { s with
        needsDNSUpdate := false
        dnsUpdates := s.dnsUpdates + 1
        processingDeferPending := true }
    else s
  let s2 := if s1.needsProxyUpdate then
      { s1 with
        needsProxyUpdate := false
        proxyUpdates := s1.proxyUpdates + 1
        processingDeferPending := true }
    else s1
  if !s2.needsDNSUpdate && !s2.needsProxyUpdate then
    { s2 with
      timerRunning := false
      processingDeferPending := false }
  else s2

/-! ### Arithmetic and list lemmas for the batch partition -/

theorem batch_count_eq_ceil {count size : Nat} (hs : 0 < size) :
    count / size + (if count % size > 0 then 1 else 0) = (count + size - 1) / size := by
  have hmod := (Nat.div_add_mod count size).symm
  set q := count / size with hq
  set r := count % size with hr
  have hrlt : r < size := Nat.mod_lt _ hs
  rcases Nat.eq_zero_or_pos r with h0 | hpos
  · rw [h0, if_neg (by omega : ¬ ((0:Nat) > 0))]
    have he : count + size - 1 = size * q + (size - 1) := by omega
    rw [he, Nat.mul_add_div hs]
    have : (size - 1) / size = 0 := Nat.div_eq_of_lt (by omega)
    omega
  · rw [if_pos hpos]
    have he : count + size - 1 = size * (q + 1) + (r - 1) := by
      have : size * (q + 1) = size * q + size := Nat.mul_succ size q
      omega
    rw [he, Nat.mul_add_div hs]
    have : (r - 1) / size = 0 := Nat.div_eq_of_lt (by omega)
    omega

/-- For a batch index below the stride, the Python slice condition
`start ≤ i ∧ (i - start) % step = 0` picks out exactly the residue class of
`start` modulo the stride. -/
theorem sliceIndices_eq_mod_filter {n b bc : Nat} (hb : b < bc) :
    sliceIndices n b bc = (List.range n).filter (fun i => i % bc == b) := by
  unfold sliceIndices
  apply List.filter_congr
  intro i _
  rw [Bool.eq_iff_iff]
  simp only [Bool.and_eq_true, decide_eq_true_eq, beq_iff_eq]
  constructor
  · rintro ⟨hbi, h⟩
    rcases Nat.dvd_of_mod_eq_zero h with ⟨k, hk⟩
    have hi : i = bc * k + b := by omega
    rw [hi, Nat.mul_add_mod]
    exact Nat.mod_eq_of_lt hb
  · intro h
    rcases Nat.lt_or_ge i b with hib | hbi
    · have : i % bc = i := Nat.mod_eq_of_lt (by omega)
      omega
    · refine ⟨hbi, ?_⟩
      have hdm := (Nat.div_add_mod i bc).symm
      have : i - b = bc * (i / bc) := by omega
      rw [this]
      exact Nat.mul_mod_right _ _

theorem count_range_ite (a n : Nat) :
    List.count a (List.range n) = if a < n then 1 else 0 := by
  rcases Nat.lt_or_ge a n with h | h
  · rw [if_pos h, List.count_eq_one_of_mem (List.nodup_range n) (List.mem_range.mpr h)]
  · rw [if_neg (by omega), List.count_eq_zero]
    intro hmem
    exact absurd (List.mem_range.mp hmem) (by omega)

theorem sum_map_range_ite (c m k : Nat) :
    ((List.range k).map (fun b => if m = b then c else 0)).sum = if m < k then c else 0 := by
  induction k with
  | zero => simp
  | succ k ih =>
    rw [List.range_succ, List.map_append, List.sum_append, ih]
    simp only [List.map_cons, List.map_nil, List.sum_cons, List.sum_nil]
    rcases Nat.lt_trichotomy m k with h | h | h
    · rw [if_pos h, if_neg (show m ≠ k by omega), if_pos (show m < k + 1 by omega)]
      omega
    · rw [if_neg (show ¬ m < k by omega), if_pos h, if_pos (show m < k + 1 by omega)]
      omega
    · rw [if_neg (show ¬ m < k by omega), if_neg (show m ≠ k by omega),
        if_neg (show ¬ m < k + 1 by omega)]
      omega

theorem count_mod_filter_range (n bc b a : Nat) :
    List.count a ((List.range n).filter (fun i => i % bc == b)) =
      if a % bc = b ∧ a < n then 1 else 0 := by
  by_cases hmem : a % bc = b
  · rw [List.count_filter (by simpa using hmem)]
    rw [count_range_ite a n]
    rcases Nat.lt_or_ge a n with h | h
    · rw [if_pos h, if_pos ⟨hmem, h⟩]
    · rw [if_neg (by omega), if_neg (by omega)]
  · rw [if_neg (by tauto), List.count_eq_zero]
    intro hin
    rw [List.mem_filter] at hin
    exact hmem (by simpa using hin.2)

/-- The residue classes modulo a positive `bc` partition `range n`:
concatenating the classes is a permutation of the range. -/
theorem mod_partition_perm (n bc : Nat) (hbc : 0 < bc) :
    ((List.range bc).flatMap (fun b => (List.range n).filter (fun i => i % bc == b))).Perm
      (List.range n) := by
  rw [List.perm_iff_count]
  intro a
  rw [List.count_flatMap]
  have hmap : (List.map (List.count a ∘ fun b => List.filter (fun i => i % bc == b) (List.range n))
      (List.range bc)) = (List.range bc).map (fun b => if a % bc = b ∧ a < n then 1 else 0) := by
    apply List.map_congr_left
    intro b _
    exact count_mod_filter_range n bc b a
  rw [hmap, count_range_ite a n]
  rcases Nat.lt_or_ge a n with h | h
  · have : ((List.range bc).map (fun b => if a % bc = b ∧ a < n then 1 else 0)) =
        (List.range bc).map (fun b => if a % bc = b then 1 else 0) := by
      apply List.map_congr_left
      intro b _
      by_cases hb : a % bc = b
      · rw [if_pos ⟨hb, h⟩, if_pos hb]
      · rw [if_neg (by tauto), if_neg hb]
    rw [this, sum_map_range_ite, if_pos (Nat.mod_lt _ hbc), if_pos h]
  · have : ((List.range bc).map (fun b => if a % bc = b ∧ a < n then 1 else 0)) =
        (List.range bc).map (fun _ => 0) := by
      apply List.map_congr_left
      intro b _
      rw [if_neg (by omega)]
    rw [this, if_neg (by omega)]
    simp

theorem filterMap_range_get (xs : List α) :
    (List.range xs.length).filterMap (fun i => xs.get? i) = xs := by
  induction xs with
  | nil => simp
  | cons x rest ih =>
    rw [List.length_cons, List.range_succ_eq_map, List.filterMap_cons]
    simp only [List.get?_cons_zero]
    rw [List.filterMap_map]
    have : ((fun i => (x :: rest).get? i) ∘ Nat.succ) = fun i => rest.get? i := by
      funext i
      simp
    rw [this, ih]

theorem length_filterMap_get (xs : List α) (idxs : List Nat)
    (h : ∀ i ∈ idxs, i < xs.length) :
    (idxs.filterMap (fun i => xs.get? i)).length = idxs.length := by
  induction idxs with
  | nil => simp
  | cons i rest ih =>
    rw [List.filterMap_cons]
    have hi : i < xs.length := h i (List.mem_cons_self i rest)
    rw [List.get?_eq_getElem?, List.getElem?_eq_getElem hi]
    simp only [List.length_cons]
    rw [ih (fun j hj => h j (List.mem_cons_of_mem _ hj))]

theorem filterMap_flatMap_comm (l : List α) (f : α → List β) (g : β → Option γ) :
    (l.flatMap f).filterMap g = l.flatMap (fun a => (f a).filterMap g) := by
  induction l with
  | nil => simp
  | cons x rest ih => simp [List.flatMap_cons, List.filterMap_append, ih]

/-- Size of a residue class of `range n` modulo `bc`. -/
theorem length_mod_filter_range (bc b : Nat) (hbc : 0 < bc) (hb : b < bc) (n : Nat) :
    ((List.range n).filter (fun i => i % bc == b)).length
      = n / bc + if b < n % bc then 1 else 0 := by
  induction n with
  | zero => simp
  | succ n ih =>
    rw [List.range_succ, List.filter_append, List.length_append, ih]
    have hkey : (List.filter (fun i => i % bc == b) [n]).length
        = if n % bc = b then 1 else 0 := by
      by_cases h : n % bc = b
      · simp [List.filter_singleton, h]
      · simp [List.filter_singleton, h]
    rw [hkey]
    have hdm := (Nat.div_add_mod n bc).symm
    have hrlt : n % bc < bc := Nat.mod_lt _ hbc
    rcases Nat.lt_or_ge (n % bc + 1) bc with hlt | hge
    · have he : n + 1 = bc * (n / bc) + (n % bc + 1) := by omega
      have hdiv : (n + 1) / bc = n / bc := by
        rw [he, Nat.mul_add_div hbc, Nat.div_eq_of_lt hlt]
        omega
      have hmod : (n + 1) % bc = n % bc + 1 := by
        rw [he, Nat.mul_add_mod, Nat.mod_eq_of_lt hlt]
      rw [hdiv, hmod]
      by_cases h1 : b < n % bc
      · rw [if_pos h1, if_neg (show ¬ n % bc = b by omega),
          if_pos (show b < n % bc + 1 by omega)]
      · by_cases h2 : n % bc = b
        · rw [if_neg h1, if_pos h2, if_pos (show b < n % bc + 1 by omega)]
        · rw [if_neg h1, if_neg h2, if_neg (show ¬ b < n % bc + 1 by omega)]
    · have hroll : n % bc + 1 = bc := by omega
      have he : n + 1 = bc * (n / bc + 1) := by
        have : bc * (n / bc + 1) = bc * (n / bc) + bc := Nat.mul_succ bc _
        omega
      have hdiv : (n + 1) / bc = n / bc + 1 := by
        rw [he, Nat.mul_div_cancel_left _ hbc]
      have hmod : (n + 1) % bc = 0 := by
        rw [he, Nat.mul_mod_right]
      rw [hdiv, hmod]
      by_cases h1 : b < n % bc
      · rw [if_pos h1, if_neg (show ¬ n % bc = b by omega),
          if_neg (show ¬ b < 0 by omega)]
      · rw [if_neg h1, if_pos (show n % bc = b by omega),
          if_neg (show ¬ b < 0 by omega)]

theorem gen_batches_eq_map (xs : List α) (size : Nat) :
    gen_batches xs size =
      (List.range (xs.length / size + if xs.length % size > 0 then 1 else 0)).map
        (fun b => pySlice xs b
          (xs.length / size + if xs.length % size > 0 then 1 else 0)) := by
  simp only [gen_batches, gen_batch_slices, List.map_map]
  rfl

theorem batch_count_pos (n size : Nat) (hs : 0 < size) (hn : 0 < n) :
    0 < n / size + if n % size > 0 then 1 else 0 := by
  rcases Nat.eq_zero_or_pos (n % size) with hm | hm
  · have hdvd : size ∣ n := Nat.dvd_of_mod_eq_zero hm
    have : 0 < n / size := Nat.div_pos (Nat.le_of_dvd hn hdvd) hs
    omega
  · rw [if_pos hm]
    exact Nat.succ_pos _

theorem pySlice_eq_mod (xs : List α) {b bc : Nat} (hb : b < bc) :
    pySlice xs b bc =
      ((List.range xs.length).filter (fun i => i % bc == b)).filterMap
        (fun i => xs.get? i) := by
  rw [pySlice, sliceIndices_eq_mod_filter hb]

theorem pySlice_length (xs : List α) {b bc : Nat} (hbc : 0 < bc) (hb : b < bc) :
    (pySlice xs b bc).length
      = xs.length / bc + if b < xs.length % bc then 1 else 0 := by
  rw [pySlice_eq_mod xs hb,
    length_filterMap_get xs _
      (fun i hi => List.mem_range.mp (List.mem_filter.mp hi).1),
    length_mod_filter_range bc b hbc hb]

theorem gen_batches_flatten_perm (xs : List α) (size : Nat) (hs : 0 < size) :
    (gen_batches xs size).flatten.Perm xs := by
  rcases Nat.eq_zero_or_pos xs.length with h0 | hpos
  · have hnil : xs = [] := List.eq_nil_of_length_eq_zero h0
    subst hnil
    simp [gen_batches, gen_batch_slices]
  · rw [gen_batches_eq_map]
    set n := xs.length with hn
    set bc := n / size + if n % size > 0 then 1 else 0 with hbc
    have hbcpos : 0 < bc := batch_count_pos n size hs hpos
    have hflat : ((List.range bc).map (fun b => pySlice xs b bc)).flatten
        = (List.range bc).flatMap (fun b => pySlice xs b bc) := by
      rw [List.flatMap_def]
    rw [hflat]
    have hcong : (List.range bc).flatMap (fun b => pySlice xs b bc)
        = (List.range bc).flatMap
            (fun b => ((List.range n).filter (fun i => i % bc == b)).filterMap
              (fun i => xs.get? i)) := by
      rw [List.flatMap_def, List.flatMap_def]
      congr 1
      apply List.map_congr_left
      intro b hbmem
      exact pySlice_eq_mod xs (List.mem_range.mp hbmem)
    rw [hcong, ← filterMap_flatMap_comm]
    have hperm := (mod_partition_perm n bc hbcpos).filterMap (fun i => xs.get? i)
    rw [hn] at hperm ⊢
    rw [filterMap_range_get] at hperm
    exact hperm

theorem gen_batches_length_eq (xs : List α) (size : Nat) (hs : 0 < size) :
    (gen_batches xs size).length = (xs.length + size - 1) / size := by
  rw [gen_batches_eq_map, List.length_map, List.length_range]
  exact batch_count_eq_ceil hs

theorem gen_batches_sizes_balanced (xs : List α) (size : Nat) :
    ∀ u ∈ gen_batches xs size, ∀ v ∈ gen_batches xs size,
      u.length ≤ v.length + 1 := by
  rw [gen_batches_eq_map]
  set n := xs.length with hn
  set bc := n / size + if n % size > 0 then 1 else 0 with hbc
  intro u hu v hv
  rcases List.mem_map.mp hu with ⟨b1, hb1, hu1⟩
  rcases List.mem_map.mp hv with ⟨b2, hb2, hv1⟩
  have hbcpos : 0 < bc := lt_of_le_of_lt (Nat.zero_le b1) (List.mem_range.mp hb1)
  rw [← hu1, ← hv1, pySlice_length xs hbcpos (List.mem_range.mp hb1),
    pySlice_length xs hbcpos (List.mem_range.mp hb2)]
  split_ifs <;> omega

theorem pySlice_zero_one (xs : List α) : pySlice xs 0 1 = xs := by
  rw [pySlice]
  have : sliceIndices xs.length 0 1 = List.range xs.length := by
    rw [sliceIndices, List.filter_eq_self]
    intro i _
    simp [Nat.mod_one]
  rw [this, filterMap_range_get]

/-! ### Claim theorems for the batch partition -/

/-- Claim C2: for every input list (of any length `count ≥ 0`) and every
`size > 0`, `gen_batches` yields exactly `ceil(count / size)` batches, the
concatenation of the batches is a permutation of the input (so every input
element lands in exactly one batch), and the sizes of any two batches differ
by at most one; in particular for `count = 250` and `size = 100` there are
3 batches whose sizes are 84, 83 and 83 — that is, 83, 83 and 84 in some
order. -/
theorem gen_batches_partition (xs : List α) (size : Nat) (hs : 0 < size) :
    (gen_batches xs size).length = (xs.length + size - 1) / size ∧
    (gen_batches xs size).flatten.Perm xs ∧
    (∀ u ∈ gen_batches xs size, ∀ v ∈ gen_batches xs size,
      u.length ≤ v.length + 1) ∧
    (gen_batches (List.range 250) 100).length = 3 ∧
    (gen_batches (List.range 250) 100).map List.length = [84, 83, 83] := by
  refine ⟨gen_batches_length_eq xs size hs, gen_batches_flatten_perm xs size hs,
    gen_batches_sizes_balanced xs size, ?_, ?_⟩
  · have h := gen_batches_length_eq (List.range 250) 100 (by omega)
    simpa using h
  · have hlen : (List.range 250).length = 250 := List.length_range 250
    have h3 : (250 : Nat) / 100 + (if 250 % 100 > 0 then 1 else 0) = 3 := by decide
    rw [gen_batches_eq_map, hlen, h3,
      show List.range 3 = [0, 1, 2] from rfl]
    simp only [List.map_cons, List.map_nil]
    rw [pySlice_length (List.range 250) (by omega) (by omega),
      pySlice_length (List.range 250) (by omega) (by omega),
      pySlice_length (List.range 250) (by omega) (by omega), hlen]
    decide

/-- Claim C2, witness: the partition theorem applied at the concrete input
list `[10, 20, 30, 40, 50]` with batch size 2. -/
theorem gen_batches_partition_witness :
    (0 : Nat) < 2 ∧
      ((gen_batches [10, 20, 30, 40, 50] 2).length = (5 + 2 - 1) / 2 ∧
      (gen_batches [10, 20, 30, 40, 50] 2).flatten.Perm [10, 20, 30, 40, 50] ∧
      (∀ u ∈ gen_batches [10, 20, 30, 40, 50] 2,
        ∀ v ∈ gen_batches [10, 20, 30, 40, 50] 2, u.length ≤ v.length + 1) ∧
      (gen_batches (List.range 250) 100).length = 3 ∧
      (gen_batches (List.range 250) 100).map List.length = [84, 83, 83]) :=
  ⟨by omega, gen_batches_partition [10, 20, 30, 40, 50] 2 (by omega)⟩

/-- Claim C10: when `0 < count ≤ size`, `gen_batches` yields exactly one
batch, equal to the input list in its original order (the stride degenerates
to 1); when `count = 0` it yields no batches at all. -/
theorem gen_batches_single_batch (xs : List α) (size : Nat) :
    (0 < xs.length → xs.length ≤ size → gen_batches xs size = [xs]) ∧
    (xs.length = 0 → gen_batches xs size = []) := by
  constructor
  · intro hpos hle
    have hbc : xs.length / size + (if xs.length % size > 0 then 1 else 0) = 1 := by
      rcases Nat.lt_or_ge xs.length size with hlt | hge
      · rw [Nat.div_eq_of_lt hlt, Nat.mod_eq_of_lt hlt, if_pos hpos]
      · have heq : xs.length = size := by omega
        rw [heq, Nat.div_self (by omega), Nat.mod_self]
        simp
    rw [gen_batches_eq_map, hbc, show List.range 1 = [0] from rfl,
      List.map_cons, List.map_nil, pySlice_zero_one]
  · intro h0
    rw [gen_batches_eq_map, h0]
    simp [Nat.zero_div, Nat.zero_mod]

/-- Claim C10, witness: a 3-element list with batch size 5 produces the
single batch equal to the list; the empty list produces no batches. -/
theorem gen_batches_single_batch_witness :
    ((0 : Nat) < ([7, 8, 9] : List Nat).length ∧
      ([7, 8, 9] : List Nat).length ≤ 5 ∧
      gen_batches [7, 8, 9] 5 = [[7, 8, 9]]) ∧
    (([] : List Nat).length = 0 ∧ gen_batches ([] : List Nat) 5 = []) :=
  ⟨⟨by decide, by decide,
      (gen_batches_single_batch [7, 8, 9] 5).1 (by decide) (by decide)⟩,
    ⟨rfl, (gen_batches_single_batch ([] : List Nat) 5).2 rfl⟩⟩

/-! ### Lemmas on forests, sorting and the detail merge -/

theorem XForest.toList_append (xs ys : XForest) :
    (xs.append ys).toList = xs.toList ++ ys.toList := by
  match xs with
  | .nil => rfl
  | .cons x t =>
    simp [XForest.append, XForest.toList, XForest.toList_append t ys]

theorem XForest.toList_ofList (l : List XElem) :
    (XForest.ofList l).toList = l := by
  induction l with
  | nil => rfl
  | cons x xs ih => simp [XForest.ofList, XForest.toList, ih]

theorem insertByKey_perm (x : String × Detail) (l : List (String × Detail)) :
    (insertByKey x l).Perm (x :: l) := by
  induction l with
  | nil => exact List.Perm.refl _
  | cons y ys ih =>
    rw [insertByKey]
    by_cases h : x.1 ≤ y.1
    · rw [if_pos h]
    · rw [if_neg h]
      exact (ih.cons y).trans (List.Perm.swap x y ys)

theorem sortByKey_perm (l : List (String × Detail)) :
    (sortByKey l).Perm l := by
  induction l with
  | nil => exact List.Perm.refl _
  | cons p ps ih =>
    have : sortByKey (p :: ps) = insertByKey p (sortByKey ps) := rfl
    rw [this]
    exact (insertByKey_perm p (sortByKey ps)).trans (ih.cons p)

theorem detailsGet_mem {name : String} {details : List (String × Detail)}
    {d : Detail} (h : detailsGet name details = some d) :
    (name, d) ∈ details := by
  rw [detailsGet] at h
  cases hfind : details.find? (fun p => p.1 = name) with
  | none => rw [hfind] at h; exact absurd h (by simp)
  | some q =>
    rw [hfind] at h
    have hq2 : q.2 = d := by simpa using h
    have hqmem : q ∈ details := List.mem_of_find?_eq_some hfind
    have hq1 : q.1 = name := by simpa using List.find?_some hfind
    have : (name, d) = q := by
      rw [← hq1, ← hq2]
    rw [this]
    exact hqmem

theorem mem_merged {nsname : String} {doc : XElem}
    {details : List (String × Detail)}
    (h : (nsname, Detail.parsed doc) ∈ details) :
    retagElem nsname doc ∈ (sortByKey details).filterMap mergeEntry := by
  have hmem : (nsname, Detail.parsed doc) ∈ sortByKey details :=
    ((sortByKey_perm details).mem_iff).mpr h
  exact List.mem_filterMap.mpr ⟨(nsname, Detail.parsed doc), hmem, rfl⟩

theorem merge_details_of_lshw {details : List (String × Detail)}
    {lshw : XElem} (h : detailsGet "lshw" details = some (Detail.parsed lshw)) :
    merge_details details = details_do_merge details lshw := by
  rw [merge_details, details_prepare_merge, details_make_backwards_compatible]
  rw [h]

/-! ### Claim theorem for the detail merge -/

/-- Claim C3: whenever the details mapping holds a well-formed lshw
document, the merged document is rooted at the parsed lshw tree's root
element — same namespace, same tag, and its children are the lshw tree's
own children followed by the per-namespace merge results — not at the
synthetic `list` root; the lshw document itself is merged again under the
`lshw` namespace, and every well-formed namespace's document appears merged
with its unqualified elements re-tagged into that namespace.  In particular
merging the parse of `{"lshw": "<list><node/></list>", "lldp": "<info/>"}`
yields a document whose root tag is the lshw root tag `list` and which
contains an element in the `lldp` namespace. -/
theorem merge_details_lshw_root (details : List (String × Detail))
    (lshw : XElem)
    (h : detailsGet "lshw" details = some (Detail.parsed lshw)) :
    (merge_details details).ns = lshw.ns ∧
    (merge_details details).tag = lshw.tag ∧
    (merge_details details).children.toList
      = lshw.children.toList ++ (sortByKey details).filterMap mergeEntry ∧
    retagElem "lshw" lshw ∈ (merge_details details).children.toList ∧
    (∀ nsname doc, (nsname, Detail.parsed doc) ∈ details →
      retagElem nsname doc ∈ (merge_details details).children.toList) ∧
    (merge_details exampleDetails).tag = "list" ∧
    "lldp" ∈ (merge_details exampleDetails).children.toList.map XElem.ns := by
  have heq := merge_details_of_lshw h
  have hchildren : (merge_details details).children.toList
      = lshw.children.toList ++ (sortByKey details).filterMap mergeEntry := by
    rw [heq, details_do_merge, XElem.children, XForest.toList_append,
      XForest.toList_ofList]
  have hex : merge_details exampleDetails
      = details_do_merge exampleDetails
          (XElem.mk "" "list"
            (XForest.cons (XElem.mk "" "node" XForest.nil) XForest.nil)) :=
    merge_details_of_lshw rfl
  have hexch : (merge_details exampleDetails).children.toList
      = (XForest.cons (XElem.mk "" "node" XForest.nil) XForest.nil).toList
          ++ (sortByKey exampleDetails).filterMap mergeEntry := by
    rw [hex, details_do_merge, XElem.children, XForest.toList_append,
      XForest.toList_ofList]
    rfl
  have hlldp : retagElem "lldp" (XElem.mk "" "info" XForest.nil)
      ∈ (merge_details exampleDetails).children.toList := by
    rw [hexch]
    refine List.mem_append_right _ (mem_merged ?_)
    rw [exampleDetails]
    exact List.mem_cons_of_mem _ (List.mem_cons_self _ _)
  refine ⟨by rw [heq]; rfl, by rw [heq]; rfl, hchildren, ?_, ?_,
    by rw [hex]; rfl, ?_⟩
  · rw [hchildren]
    exact List.mem_append_right _ (mem_merged (detailsGet_mem h))
  · intro nsname doc hmem
    rw [hchildren]
    exact List.mem_append_right _ (mem_merged hmem)
  · have := List.mem_map_of_mem XElem.ns hlldp
    simpa using this

/-- Claim C3, witness: the characterization applied to the concrete parsed
mapping of the claim. -/
theorem merge_details_lshw_root_witness :
    detailsGet "lshw" exampleDetails
        = some (Detail.parsed (XElem.mk "" "list"
            (XForest.cons (XElem.mk "" "node" XForest.nil) XForest.nil))) ∧
    (merge_details exampleDetails).tag = "list" ∧
    retagElem "lshw"
        (XElem.mk "" "list"
          (XForest.cons (XElem.mk "" "node" XForest.nil) XForest.nil))
      ∈ (merge_details exampleDetails).children.toList ∧
    "lldp" ∈ (merge_details exampleDetails).children.toList.map XElem.ns :=
  ⟨rfl,
    (merge_details_lshw_root exampleDetails _ rfl).2.2.2.2.2.1,
    (merge_details_lshw_root exampleDetails _ rfl).2.2.2.1,
    (merge_details_lshw_root exampleDetails _ rfl).2.2.2.2.2.2⟩

/-! ### Lemmas for the shared-secret hex round trip -/

theorem hexVal_hexDigit : ∀ n < 16, hexVal (hexDigit n) = some n := by decide

theorem hexDigit_not_ws : ∀ n < 16, isPyWhitespace (hexDigit n) = false := by
  decide

theorem dropWhile_eq_self_of_all {p : Char → Bool} (l : List Char)
    (h : ∀ c ∈ l, p c = false) : l.dropWhile p = l := by
  cases l with
  | nil => rfl
  | cons c cs =>
    rw [List.dropWhile_cons, if_neg]
    simp [h c (List.mem_cons_self c cs)]

theorem stripChars_eq_self (l : List Char)
    (h : ∀ c ∈ l, isPyWhitespace c = false) : stripChars l = l := by
  rw [stripChars, dropWhile_eq_self_of_all l h,
    dropWhile_eq_self_of_all l.reverse (fun c hc => h c (List.mem_reverse.mp hc)),
    List.reverse_reverse]

theorem a2b_hex_to_hex (s : List Nat) (hs : ∀ b ∈ s, b < 256) :
    a2b_hex (s.flatMap (fun x => [hexDigit (x / 16), hexDigit (x % 16)]))
      = some s := by
  induction s with
  | nil => rfl
  | cons x rest ih =>
    have hx : x < 256 := hs x (List.mem_cons_self x rest)
    have h1 : x / 16 < 16 := by omega
    have h2 : x % 16 < 16 := Nat.mod_lt _ (by omega)
    rw [List.flatMap_cons]
    show a2b_hex (hexDigit (x / 16) :: hexDigit (x % 16) ::
      rest.flatMap (fun x => [hexDigit (x / 16), hexDigit (x % 16)]))
      = some (x :: rest)
    rw [a2b_hex, hexVal_hexDigit _ h1, hexVal_hexDigit _ h2,
      ih (fun b hb => hs b (List.mem_cons_of_mem _ hb))]
    simp [Nat.div_add_mod]

theorem to_bin_to_hex (s : List Nat) (hs : ∀ b ∈ s, b < 256) :
    to_bin (to_hex s) = some s := by
  rw [to_bin, to_hex]
  have hall : ∀ c ∈ s.flatMap (fun x => [hexDigit (x / 16), hexDigit (x % 16)]),
      isPyWhitespace c = false := by
    intro c hc
    rcases List.mem_flatMap.mp hc with ⟨x, hxmem, hcx⟩
    have hx : x < 256 := hs x hxmem
    simp only [List.mem_cons, List.not_mem_nil, or_false] at hcx
    rcases hcx with h | h
    · rw [h]
      exact hexDigit_not_ws _ (by omega)
    · rw [h]
      exact hexDigit_not_ws _ (Nat.mod_lt _ (by omega))
  rw [show (String.mk (s.flatMap fun x => [hexDigit (x / 16), hexDigit (x % 16)])).data
      = s.flatMap fun x => [hexDigit (x / 16), hexDigit (x % 16)] from rfl]
  rw [stripChars_eq_self _ hall]
  exact a2b_hex_to_hex s hs

/-! ### Claim theorems for the shared-secret module -/

/-- Claim C4: for every byte string `s`, writing the secret and then reading
it back returns exactly `s` — the write stores the hex encoding as text and
the read decodes it back to raw bytes — while reading with no secret file
present returns no value and any other I/O failure propagates. -/
theorem shared_secret_roundtrip (s : List Nat) (hs : ∀ b ∈ s, b < 256)
    (fs : SecretFile) :
    get_shared_secret_from_filesystem (set_shared_secret_on_filesystem s fs)
        = Except.ok (some s) ∧
    set_shared_secret_on_filesystem s fs = SecretFile.stored (to_hex s) ∧
    get_shared_secret_from_filesystem SecretFile.absent = Except.ok none ∧
    get_shared_secret_from_filesystem SecretFile.ioError
        = Except.error SecretError.ioError := by
  refine ⟨?_, rfl, rfl, rfl⟩
  rw [set_shared_secret_on_filesystem, get_shared_secret_from_filesystem,
    to_bin_to_hex s hs]

/-- Claim C4, witness: the round trip at the concrete secret
`[0xde, 0xad, 0xbe, 0xef]` starting from an absent file. -/
theorem shared_secret_roundtrip_witness :
    (∀ b ∈ [0xde, 0xad, 0xbe, 0xef], b < 256) ∧
    get_shared_secret_from_filesystem
        (set_shared_secret_on_filesystem [0xde, 0xad, 0xbe, 0xef]
          SecretFile.absent)
      = Except.ok (some [0xde, 0xad, 0xbe, 0xef]) :=
  ⟨by decide,
    (shared_secret_roundtrip [0xde, 0xad, 0xbe, 0xef] (by decide)
      SecretFile.absent).1⟩

/-- Claim C9: `calculate_digest(secret, message, salt)` is HMAC-SHA-256
keyed by `secret` over the concatenation `message ++ salt`, and it depends
only on that concatenation: any two splits of the same byte sequence give
the same digest (there is no delimiter or domain separation between message
and salt), in particular splitting off an empty salt. -/
theorem calculate_digest_concat_only (secret m1 m2 m1' m2' : List Nat)
    (h : m1 ++ m2 = m1' ++ m2') :
    calculate_digest secret m1 m2 = calculate_digest secret m1' m2' ∧
    calculate_digest secret m1 m2 = calculate_digest secret (m1 ++ m2) [] ∧
    calculate_digest secret m1 m2 = hmac_sha256 secret (m1 ++ m2) := by
  have key : ∀ a b : List Nat,
      calculate_digest secret a b = hmac_sha256 secret (a ++ b) := by
    intro a b
    rfl
  refine ⟨?_, ?_, key m1 m2⟩
  · rw [key m1 m2, key m1' m2', h]
  · rw [key m1 m2, key (m1 ++ m2) [], List.append_nil]

/-- Claim C9, witness: the split-independence applied at concrete byte
strings, with the split `[1] ++ [2, 3] = [1, 2] ++ [3]`. -/
theorem calculate_digest_concat_only_witness :
    ([1] ++ [2, 3] : List Nat) = [1, 2] ++ [3] ∧
    (calculate_digest [9, 9] [1] [2, 3] = calculate_digest [9, 9] [1, 2] [3] ∧
    calculate_digest [9, 9] [1] [2, 3]
        = calculate_digest [9, 9] ([1] ++ [2, 3]) [] ∧
    calculate_digest [9, 9] [1] [2, 3] = hmac_sha256 [9, 9] ([1] ++ [2, 3])) :=
  ⟨rfl, calculate_digest_concat_only [9, 9] [1] [2, 3] [1, 2] [3] rfl⟩

/-! ### Lemmas and claim theorem for the profile store -/

theorem find?_filter_ne_none (rows : List (String × String)) (n : String) :
    (rows.filter (fun r => r.1 ≠ n)).find? (fun r => r.1 = n) = none := by
  rw [List.find?_eq_none]
  intro r hr
  have := (List.mem_filter.mp hr).2
  simpa using this

theorem selectData_insertOrReplace (db : ProfileDb) (n data : String) :
    selectData (insertOrReplace db n data) n = some data := by
  rw [selectData, insertOrReplace, List.find?_append, find?_filter_ne_none]
  simp [List.find?]

theorem selectData_deleteRow (db : ProfileDb) (n : String) :
    selectData (deleteRow db n) n = none := by
  rw [selectData, deleteRow, find?_filter_ne_none]
  rfl

/-- Claim C5: with the json library's round-trip contract
`loads (dumps v) = v` at the boundary, storing a value under a profile name
and reading it back returns an equal value; the name then appears among the
enumerated profile names; and after deletion, the lookup fails with
`KeyError(name)` — surfaced by the CLI as NotFound. -/
theorem profile_roundtrip {J : Type} (dumps : J → String)
    (loads : String → J) (hcodec : ∀ v, loads (dumps v) = v)
    (db : ProfileDb) (n : String) (v : J) :
    profileGet loads (profileSet dumps db n v) n = Except.ok v ∧
    n ∈ profileNames (profileSet dumps db n v) ∧
    profileGet loads (profileDel (profileSet dumps db n v) n) n
        = Except.error n := by
  refine ⟨?_, ?_, ?_⟩
  · rw [profileGet, profileSet, selectData_insertOrReplace]
    simp [hcodec]
  · rw [profileNames, profileSet, insertOrReplace]
    simp
  · rw [profileGet, profileDel, profileSet, selectData_deleteRow]

/-- The closed form of the one-step parser equation for a cons input. -/
theorem jsonParseStrBody_cons (c : Char) (rest : List Char) :
    jsonParseStrBody (c :: rest) =
      (if c = '"' then some ([], rest)
      else if c = '\\' then
        match rest with
        | [] => none
        | e :: rest' => (jsonParseStrBody rest').map (fun p => (e :: p.1, p.2))
      else (jsonParseStrBody rest).map (fun p => (c :: p.1, p.2))) := by
  rw [jsonParseStrBody.eq_def]

theorem jsonParseStrBody_roundtrip (s : List Char) :
    jsonParseStrBody (s.flatMap jsonEscapeChar ++ ['"']) = some (s, []) := by
  induction s with
  | nil => rfl
  | cons c cs ih =>
    rw [List.flatMap_cons, jsonEscapeChar]
    by_cases h : c = '"' ∨ c = '\\'
    · rw [if_pos h]
      show jsonParseStrBody ('\\' :: c :: (cs.flatMap jsonEscapeChar ++ ['"']))
        = some (c :: cs, [])
      rw [jsonParseStrBody_cons, if_neg (by decide), if_pos rfl]
      show Option.map (fun p => (c :: p.1, p.2))
        (jsonParseStrBody (cs.flatMap jsonEscapeChar ++ ['"']))
        = some (c :: cs, [])
      rw [ih]
      rfl
    · rw [if_neg h]
      push_neg at h
      show jsonParseStrBody (c :: (cs.flatMap jsonEscapeChar ++ ['"']))
        = some (c :: cs, [])
      rw [jsonParseStrBody_cons, if_neg h.1, if_neg h.2, ih]
      rfl

theorem json_str_roundtrip (s : List Char) :
    json_loads_str (json_dumps_str s) = some s := by
  rw [json_dumps_str]
  show (match jsonParseStrBody (s.flatMap jsonEscapeChar ++ ['"']) with
    | some (body, []) => some body
    | _ => none) = some s
  rw [jsonParseStrBody_roundtrip s]

/-- The string-payload codec satisfies the json round-trip contract. -/
theorem loadsStrCodec_dumpsStrCodec (v : List Char) :
    loadsStrCodec (dumpsStrCodec v) = v := by
  rw [loadsStrCodec, dumpsStrCodec]
  show (json_loads_str (json_dumps_str v)).getD [] = v
  rw [json_str_roundtrip]
  rfl

/-- Claim C5, witness: the round trip at a concrete store, profile name and
value, with the codec instantiated by a genuine JSON string encoding (quote
and escape on write, parse on read), whose round-trip contract is proven
above. -/
theorem profile_roundtrip_witness :
    (∀ v : List Char, loadsStrCodec (dumpsStrCodec v) = v) ∧
    (profileGet loadsStrCodec (profileSet dumpsStrCodec
        (ProfileDb.mk [("other", "42")]) "mine" ['h', 'i']) "mine"
      = Except.ok ['h', 'i'] ∧
    "mine" ∈ profileNames (profileSet dumpsStrCodec
        (ProfileDb.mk [("other", "42")]) "mine" ['h', 'i']) ∧
    profileGet loadsStrCodec (profileDel (profileSet dumpsStrCodec
        (ProfileDb.mk [("other", "42")]) "mine" ['h', 'i']) "mine") "mine"
      = Except.error "mine") :=
  ⟨loadsStrCodec_dumpsStrCodec,
    profile_roundtrip dumpsStrCodec loadsStrCodec loadsStrCodec_dumpsStrCodec
      (ProfileDb.mk [("other", "42")]) "mine" ['h', 'i']⟩

/-! ### Claim theorem for script download -/

/-- Claim C8: with no revision parameter, `download` returns the raw binary
content of the script's latest revision; a revision id is taken from
`revision`, with `rev` consulted only if `revision` is absent; a supplied
id is served from the revision history when present there, and otherwise
the call fails with the not-found-in-history error. -/
theorem download_revision_rules (s : Script) (r : Int) (p : Option Int) :
    download s none none = Except.ok s.current_data ∧
    download s (some r) p = download s (some r) none ∧
    download s none (some r) = download s (some r) none ∧
    (r ∈ s.history.map ScriptRevision.id →
      ∃ v ∈ s.history, v.id = r ∧ download s (some r) p = Except.ok v.data) ∧
    (r ∉ s.history.map ScriptRevision.id →
      download s (some r) p = Except.error r) := by
  refine ⟨rfl, rfl, rfl, ?_, ?_⟩
  · intro hmem
    rcases List.mem_map.mp hmem with ⟨v, hv, hvid⟩
    cases hfind : s.history.find? (fun rev => rev.id = r) with
    | none =>
      exfalso
      have := List.find?_eq_none.mp hfind v hv
      simp [hvid] at this
    | some w =>
      refine ⟨w, List.mem_of_find?_eq_some hfind,
        by simpa using List.find?_some hfind, ?_⟩
      rw [download]
      simp only [hfind]
  · intro hnot
    have hfind : s.history.find? (fun rev => rev.id = r) = none := by
      rw [List.find?_eq_none]
      intro v hv
      simp only [decide_eq_true_eq]
      intro heq
      exact hnot (List.mem_map.mpr ⟨v, hv, heq⟩)
    rw [download]
    simp only [hfind]

/-- Claim C8, witness: the download rules applied to a concrete script with
revisions 1 and 2, at a present id (1) and an absent id (5). -/
theorem download_revision_rules_witness :
    ((1 : Int) ∈ (Script.mk [9] [⟨1, [10]⟩, ⟨2, [20]⟩]).history.map
        ScriptRevision.id ∧
      (5 : Int) ∉ (Script.mk [9] [⟨1, [10]⟩, ⟨2, [20]⟩]).history.map
        ScriptRevision.id) ∧
    download (Script.mk [9] [⟨1, [10]⟩, ⟨2, [20]⟩]) none none
        = Except.ok [9] ∧
    (∃ v ∈ (Script.mk [9] [⟨1, [10]⟩, ⟨2, [20]⟩]).history, v.id = 1 ∧
      download (Script.mk [9] [⟨1, [10]⟩, ⟨2, [20]⟩]) (some 1) (some 7)
        = Except.ok v.data) ∧
    download (Script.mk [9] [⟨1, [10]⟩, ⟨2, [20]⟩]) (some 5) none
        = Except.error 5 :=
  ⟨⟨by decide, by decide⟩,
    (download_revision_rules (Script.mk [9] [⟨1, [10]⟩, ⟨2, [20]⟩]) 1
      (some 7)).1,
    (download_revision_rules (Script.mk [9] [⟨1, [10]⟩, ⟨2, [20]⟩]) 1
      (some 7)).2.2.2.1 (by decide),
    (download_revision_rules (Script.mk [9] [⟨1, [10]⟩, ⟨2, [20]⟩]) 5
      none).2.2.2.2 (by decide)⟩

/-! ### Claim theorem for `set_static_ip` -/

/-- Claim C1: `set_static_ip(requested_address, user)` fails as a conflict
when the MAC is linked to a cluster interface whose network excludes the
address; fails as forbidden when the address lies in a dynamic range; when
a StaticIPAddress for the address exists it fails as unavailable unless
that address is STICKY and linked to this exact MAC, in which case it
succeeds returning the existing record with the database unchanged; and
when none exists a STICKY address owned by `user` is created and linked to
this MAC. -/
theorem set_static_ip_rules (db : StaticIpDb) (m : MACAddress) (r u : Nat) :
    (∀ ci, m.get_cluster_interface = some ci →
      ci.network.contains r = false →
      set_static_ip db m r u none = Except.error StaticIpError.conflict) ∧
    (passes_conflict_check m r = true →
      address_inside_dynamic_range r db.dynamic_ranges = true →
      set_static_ip db m r u none = Except.error StaticIpError.forbidden) ∧
    (passes_conflict_check m r = true →
      address_inside_dynamic_range r db.dynamic_ranges = false →
      ∀ sip, db.sips.find? (fun s => s.ip = r) = some sip →
        (sip.alloc_type ≠ AllocType.sticky →
          set_static_ip db m r u none
            = Except.error StaticIpError.unavailable) ∧
        (sip.alloc_type = AllocType.sticky →
          db.links.any (fun l => l.1 = m.mac_address && l.2 = sip.id)
              = false →
          set_static_ip db m r u none
            = Except.error StaticIpError.unavailable) ∧
        (sip.alloc_type = AllocType.sticky →
          db.links.any (fun l => l.1 = m.mac_address && l.2 = sip.id)
              = true →
          set_static_ip db m r u none = Except.ok (db, sip))) ∧
    (passes_conflict_check m r = true →
      address_inside_dynamic_range r db.dynamic_ranges = false →
      db.sips.find? (fun s => s.ip = r) = none →
      ∃ new_sip : StaticIP,
        new_sip.ip = r ∧ new_sip.alloc_type = AllocType.sticky ∧
        new_sip.user = some u ∧
        set_static_ip db m r u none = Except.ok
          (⟨db.sips ++ [new_sip], db.links ++ [(m.mac_address, new_sip.id)],
            db.dynamic_ranges, db.next_id + 1⟩, new_sip)) := by
  refine ⟨?_, ?_, ?_, ?_⟩
  · intro ci hci hout
    have hpass : passes_conflict_check m r = false := by
      rw [passes_conflict_check, hci]
      exact hout
    rw [set_static_ip]
    simp [hpass]
  · intro hpass hdyn
    rw [set_static_ip]
    simp [hpass, hdyn]
  · intro hpass hdyn sip hfind
    have hbase : set_static_ip db m r u none
        = (if sip.alloc_type ≠ AllocType.sticky then
            Except.error StaticIpError.unavailable
          else if !db.links.any
              (fun l => l.1 = m.mac_address && l.2 = sip.id) then
            Except.error StaticIpError.unavailable
          else Except.ok (db, sip)) := by
      rw [set_static_ip]
      simp [hpass, hdyn, hfind]
    refine ⟨?_, ?_, ?_⟩
    · intro hne
      rw [hbase, if_pos hne]
    · intro hsticky hnolink
      rw [hbase, if_neg (by simp [hsticky]), if_pos (by simp [hnolink])]
    · intro hsticky hlink
      rw [hbase, if_neg (by simp [hsticky]), if_neg (by simp [hlink])]
  · intro hpass hdyn hfind
    refine ⟨⟨db.next_id, r, AllocType.sticky, some u,
      match m.get_cluster_interface with
      | some ci => ci.subnet
      | none => none⟩, rfl, rfl, rfl, ?_⟩
    rw [set_static_ip]
    simp [hpass, hdyn, hfind]

/-- Claim C1, witness: every branch of the rules at concrete inputs —
address 50 outside the network (conflict), 185 inside the dynamic range
(forbidden), 160 already AUTO (unavailable), 150 STICKY but claimed by a
different MAC (unavailable), 150 STICKY and linked to this MAC (returns the
existing record, database untouched), and 170 free (created STICKY for the
user). -/
theorem set_static_ip_rules_witness :
    set_static_ip exampleDb exampleMac 50 5 none
        = Except.error StaticIpError.conflict ∧
    set_static_ip exampleDb exampleMac 185 5 none
        = Except.error StaticIpError.forbidden ∧
    set_static_ip exampleDb exampleMac 160 5 none
        = Except.error StaticIpError.unavailable ∧
    set_static_ip exampleDb exampleOtherMac 150 5 none
        = Except.error StaticIpError.unavailable ∧
    set_static_ip exampleDb exampleMac 150 5 none
        = Except.ok (exampleDb, ⟨0, 150, AllocType.sticky, some 5, some 1⟩) ∧
    (∃ new_sip : StaticIP,
      new_sip.ip = 170 ∧ new_sip.alloc_type = AllocType.sticky ∧
      new_sip.user = some 5 ∧
      set_static_ip exampleDb exampleMac 170 5 none = Except.ok
        (⟨exampleDb.sips ++ [new_sip],
          exampleDb.links ++ [("aa:bb", new_sip.id)],
          exampleDb.dynamic_ranges, exampleDb.next_id + 1⟩, new_sip)) :=
  ⟨(set_static_ip_rules exampleDb exampleMac 50 5).1 exampleCi rfl (by decide),
    (set_static_ip_rules exampleDb exampleMac 185 5).2.1 (by decide) (by decide),
    ((set_static_ip_rules exampleDb exampleMac 160 5).2.2.1 (by decide)
      (by decide) ⟨1, 160, AllocType.auto, none, none⟩ (by decide)).1
      (by decide),
    ((set_static_ip_rules exampleDb exampleOtherMac 150 5).2.2.1 (by decide)
      (by decide) ⟨0, 150, AllocType.sticky, some 5, some 1⟩ (by decide)).2.1
      rfl (by decide),
    ((set_static_ip_rules exampleDb exampleMac 150 5).2.2.1 (by decide)
      (by decide) ⟨0, 150, AllocType.sticky, some 5, some 1⟩ (by decide)).2.2
      rfl (by decide),
    (set_static_ip_rules exampleDb exampleMac 170 5).2.2.2 (by decide)
      (by decide) (by decide)⟩

/-! ### Claim theorem for the VLAN form promotion -/

/-- Claim C6: on a VLAN with both racks set, a form update that submits a
blank `primary_rack` succeeds and promotes the secondary — the former
secondary becomes primary and the secondary slot is cleared — and an update
that sets `primary_rack` to the rack currently held as `secondary_rack`
performs the same promotion rather than leaving two identical racks. -/
theorem vlan_promote_secondary (attached : List Nat) (st : VlanRacks)
    (r1 r2 : Nat) (h1 : st.primary_rack = some r1)
    (h2 : st.secondary_rack = some r2) (hatt : r2 ∈ attached) :
    vlan_form_update_racks attached st FieldSub.blank FieldSub.omitted
        = Except.ok ⟨some r2, none⟩ ∧
    vlan_form_update_racks attached st (FieldSub.value r2) FieldSub.omitted
        = Except.ok ⟨some r2, none⟩ := by
  constructor
  · simp [vlan_form_update_racks, h2]
  · simp [vlan_form_update_racks, h2, hatt]

/-- Claim C6, witness: the promotion at a VLAN with racks 1 and 2 both
attached. -/
theorem vlan_promote_secondary_witness :
    (VlanRacks.mk (some 1) (some 2)).primary_rack = some 1 ∧
    (VlanRacks.mk (some 1) (some 2)).secondary_rack = some 2 ∧
    2 ∈ [1, 2] ∧
    vlan_form_update_racks [1, 2] (VlanRacks.mk (some 1) (some 2))
        FieldSub.blank FieldSub.omitted = Except.ok ⟨some 2, none⟩ ∧
    vlan_form_update_racks [1, 2] (VlanRacks.mk (some 1) (some 2))
        (FieldSub.value 2) FieldSub.omitted = Except.ok ⟨some 2, none⟩ :=
  ⟨rfl, rfl, by decide,
    (vlan_promote_secondary [1, 2] (VlanRacks.mk (some 1) (some 2)) 1 2 rfl
      rfl (by decide)).1,
    (vlan_promote_secondary [1, 2] (VlanRacks.mk (some 1) (some 2)) 1 2 rfl
      rfl (by decide)).2⟩

/-! ### Claim theorem for the region controller service -/

/-- Claim C7: starting the service immediately marks both the DNS and the
proxy dirty flags (and starts the timer); once the reconciliation tick
elapses, the DNS-zone regeneration and the proxy-configuration regeneration
have each run exactly once, both flags are clear again, the timer has
halted and the tracked in-flight processing reference is cleared. -/
theorem region_controller_initial_pass :
    (startService RegionControllerService.initial).needsDNSUpdate = true ∧
    (startService RegionControllerService.initial).needsProxyUpdate = true ∧
    (startService RegionControllerService.initial).timerRunning = true ∧
    (tick (startService RegionControllerService.initial)).dnsUpdates = 1 ∧
    (tick (startService RegionControllerService.initial)).proxyUpdates = 1 ∧
    (tick (startService RegionControllerService.initial)).needsDNSUpdate
        = false ∧
    (tick (startService RegionControllerService.initial)).needsProxyUpdate
        = false ∧
    (tick (startService RegionControllerService.initial)).timerRunning
        = false ∧
    (tick (startService
        RegionControllerService.initial)).processingDeferPending = false := by
  decide

end Maas
